import Mathlib

/-!
# SigtraConfig — verification of the trading core

A shallow embedding, in Lean 4 over exact rational arithmetic, of the
risk-sizing, FIFO fill-matching, order-execution and backtest-simulation
logic of the SigtraConfig repository, together with theorems settling the
specification's claims about that logic.

JS numbers are modelled as `ℚ` (the algorithms are real-arithmetic;
`Number.prototype.toFixed` and `Math.round` are modelled exactly as
decimal roundings on `ℚ`).  Fallible operations return `Option`/`Except`.
-/

namespace Sigtra

/-- Order side as used by venue fills and order specs. -/
inductive Side where
  | buy
  | sell
deriving DecidableEq, Repr

/-- The opposite venue side. -/
def Side.opp : Side → Side
  | .buy => .sell
  | .sell => .buy

/-- Signal direction as produced by the strategy engine
(`signal` field of the AI JSON: `LONG`, `SHORT` or `HOLD`). -/
inductive Sig where
  | LONG
  | SHORT
  | HOLD
deriving DecidableEq, Repr

@[simp] theorem Side.sell_ne_buy : (Side.sell : Side) ≠ .buy := fun h => Side.noConfusion h

@[simp] theorem Side.buy_ne_sell : (Side.buy : Side) ≠ .sell := fun h => Side.noConfusion h

@[simp] theorem Sig.long_ne_short : (Sig.LONG : Sig) ≠ .SHORT := fun h => Sig.noConfusion h

@[simp] theorem Sig.short_ne_long : (Sig.SHORT : Sig) ≠ .LONG := fun h => Sig.noConfusion h

@[simp] theorem Sig.long_ne_hold : (Sig.LONG : Sig) ≠ .HOLD := fun h => Sig.noConfusion h

@[simp] theorem Sig.hold_ne_long : (Sig.HOLD : Sig) ≠ .LONG := fun h => Sig.noConfusion h

@[simp] theorem Sig.short_ne_hold : (Sig.SHORT : Sig) ≠ .HOLD := fun h => Sig.noConfusion h

@[simp] theorem Sig.hold_ne_short : (Sig.HOLD : Sig) ≠ .SHORT := fun h => Sig.noConfusion h

/-- `Number.prototype.toFixed(dp)` modelled on `ℚ`: rounding to `dp`
decimal places, ties away from zero (which for the non-negative values
used here coincides with ties-up), followed by `parseFloat`. -/
def jsToFixed (dp : ℕ) (q : ℚ) : ℚ :=
  if q < 0 then -((round (-q * 10 ^ dp) : ℚ) / 10 ^ dp)
  else (round (q * 10 ^ dp) : ℚ) / 10 ^ dp

/-- `Math.round` modelled on `ℚ`: round half toward `+∞`,
exactly Mathlib's `round`. -/
def mathRound (q : ℚ) : ℚ := (round q : ℚ)

theorem jsToFixed_le (dp : ℕ) (q : ℚ) :
    jsToFixed dp q ≤ q + 1 / (2 * 10 ^ dp) := by
  have h10 : (0:ℚ) < 10 ^ dp := by positivity
  have key : (q + 1 / (2 * 10 ^ dp)) * 10 ^ dp = q * 10 ^ dp + 1/2 := by
    field_simp; ring
  unfold jsToFixed
  split
  · have h := abs_sub_round (-q * 10 ^ dp)
    rw [abs_sub_le_iff] at h
    rw [neg_le, le_div_iff₀ h10]
    have : (-(q + 1 / (2 * 10 ^ dp))) * 10 ^ dp = -q * 10 ^ dp - 1/2 := by
      field_simp; ring
    rw [this]
    linarith [h.1]
  · have h := abs_sub_round (q * 10 ^ dp)
    rw [abs_sub_le_iff] at h
    rw [div_le_iff₀ h10, key]
    linarith [h.1]

theorem le_jsToFixed (dp : ℕ) (q : ℚ) :
    q - 1 / (2 * 10 ^ dp) ≤ jsToFixed dp q := by
  have h10 : (0:ℚ) < 10 ^ dp := by positivity
  unfold jsToFixed
  split
  · have h := abs_sub_round (-q * 10 ^ dp)
    rw [abs_sub_le_iff] at h
    rw [le_neg, div_le_iff₀ h10]
    have : (-(q - 1 / (2 * 10 ^ dp))) * 10 ^ dp = -q * 10 ^ dp + 1/2 := by
      field_simp; ring
    rw [this]
    linarith [h.1]
  · have h := abs_sub_round (q * 10 ^ dp)
    rw [abs_sub_le_iff] at h
    rw [le_div_iff₀ h10]
    have : (q - 1 / (2 * 10 ^ dp)) * 10 ^ dp = q * 10 ^ dp - 1/2 := by
      field_simp; ring
    rw [this]
    linarith [h.2]

/-! ## RiskManager (riskManager.js)

`RiskManager` is constructed with `{ leverage, marginBuffer }`
(`config.leverage || 10`, `config.marginBuffer || 0.01` — the backtest
runner passes `{ leverage: 10, marginBuffer: 0.01 }`, the live bot
`{ leverage: 10, marginBuffer: 0.4 }`). -/

structure RiskConfig where
  leverage : ℚ
  marginBuffer : ℚ
deriving DecidableEq, Repr

/-- Trade plan fields read by `calculateTradeParameters` from the AI's
trading signal. -/
structure TradingSignal where
  signal : Sig
  stop_loss_distance_in_usd : ℚ
  take_profit_distance_in_usd : ℚ
deriving DecidableEq, Repr

/-- Result of `calculateTradeParameters`. -/
structure TradeParams where
  size : ℚ
  stopLoss : ℚ
  takeProfit : ℚ
deriving DecidableEq, Repr

/-- `sizeInUnits` before the margin cap: `balance * 0.02 / stop_loss_distance`. -/
def rawSize (balance sl : ℚ) : ℚ := balance * (2/100) / sl

/-- `maxSizeBasedOnMargin = ((balance * leverage) / lastPrice) * 0.95`. -/
def maxSizeBasedOnMargin (cfg : RiskConfig) (balance lastPrice : ℚ) : ℚ :=
  balance * cfg.leverage / lastPrice * (95/100)

/-- `sizeInUnits = Math.min(rawSize, maxSizeBasedOnMargin)`. -/
def cappedSize (cfg : RiskConfig) (balance lastPrice sl : ℚ) : ℚ :=
  min (rawSize balance sl) (maxSizeBasedOnMargin cfg balance lastPrice)

/-- `marginRequired = (sizeInUnits * lastPrice / leverage) * (1 + marginBuffer)`,
computed on the capped (pre-rounding) size. -/
def marginRequired (cfg : RiskConfig) (balance lastPrice sl : ℚ) : ℚ :=
  cappedSize cfg balance lastPrice sl * lastPrice / cfg.leverage * (1 + cfg.marginBuffer)

/-- `RiskManager.calculateTradeParameters` (riskManager.js).
`lastPrice` is `ohlc[ohlc.length - 1].close` of the market window passed in.
Rejections (`return null`): non-positive/missing balance, non-positive
stop-loss or take-profit distance, `marginRequired > balance`, or
`sizeInUnits < 0.0001`.  On success the size is rounded with `toFixed(4)`
and both absolute prices with `toFixed(0)`. -/
def calculateTradeParameters (cfg : RiskConfig) (balance lastPrice : ℚ)
    (sig : TradingSignal) : Option TradeParams :=
  if balance ≤ 0 then none
  else if sig.stop_loss_distance_in_usd ≤ 0 then none
  else if sig.take_profit_distance_in_usd ≤ 0 then none
  else
    let sizeInUnits := cappedSize cfg balance lastPrice sig.stop_loss_distance_in_usd
    if balance < marginRequired cfg balance lastPrice sig.stop_loss_distance_in_usd then none
    else if sizeInUnits < 1/10000 then none
    else
      let stopLossPrice :=
        if sig.signal = .LONG then lastPrice - sig.stop_loss_distance_in_usd
        else lastPrice + sig.stop_loss_distance_in_usd
      let takeProfitPrice :=
        if sig.signal = .LONG then lastPrice + sig.take_profit_distance_in_usd
        else lastPrice - sig.take_profit_distance_in_usd
      some { size := jsToFixed 4 sizeInUnits
             stopLoss := jsToFixed 0 stopLossPrice
             takeProfit := jsToFixed 0 takeProfitPrice }

/-- The backtest runner's risk configuration
(`new RiskManager({ leverage: 10, marginBuffer: 0.01 })`); `0.01` is also
the constructor's default margin buffer. -/
def backtestRiskCfg : RiskConfig := { leverage := 10, marginBuffer := 1/100 }

end Sigtra

/-! ## Claims C3, C4, C5, C8 — RiskManager -/

namespace Sigtra

/-- Characterization of the success path of `calculateTradeParameters`:
all rejection checks pass and the result carries the rounded size and the
rounded absolute stop/target prices. -/
theorem calculateTradeParameters_eq_some_iff (cfg : RiskConfig)
    (balance lastPrice : ℚ) (sig : TradingSignal) (p : TradeParams) :
    calculateTradeParameters cfg balance lastPrice sig = some p ↔
      (¬ balance ≤ 0 ∧ ¬ sig.stop_loss_distance_in_usd ≤ 0 ∧
       ¬ sig.take_profit_distance_in_usd ≤ 0 ∧
       ¬ balance < marginRequired cfg balance lastPrice sig.stop_loss_distance_in_usd ∧
       ¬ cappedSize cfg balance lastPrice sig.stop_loss_distance_in_usd < 1/10000 ∧
       p = { size := jsToFixed 4
               (cappedSize cfg balance lastPrice sig.stop_loss_distance_in_usd)
             stopLoss := jsToFixed 0
               (if sig.signal = .LONG then lastPrice - sig.stop_loss_distance_in_usd
                else lastPrice + sig.stop_loss_distance_in_usd)
             takeProfit := jsToFixed 0
               (if sig.signal = .LONG then lastPrice + sig.take_profit_distance_in_usd
                else lastPrice - sig.take_profit_distance_in_usd) }) := by
  by_cases h1 : balance ≤ 0
  · simp [calculateTradeParameters, h1]
  · by_cases h2 : sig.stop_loss_distance_in_usd ≤ 0
    · simp [calculateTradeParameters, h1, h2]
    · by_cases h3 : sig.take_profit_distance_in_usd ≤ 0
      · simp [calculateTradeParameters, h1, h2, h3]
      · by_cases h4 : balance <
            marginRequired cfg balance lastPrice sig.stop_loss_distance_in_usd
        · simp [calculateTradeParameters, h1, h2, h3, h4]
        · by_cases h5 : cappedSize cfg balance lastPrice
              sig.stop_loss_distance_in_usd < 1/10000
          · simp only [calculateTradeParameters]
            rw [if_neg h1, if_neg h2, if_neg h3, if_neg h4, if_pos h5]
            constructor
            · intro hc
              exact Option.noConfusion hc
            · rintro ⟨-, -, -, -, hcap, -⟩
              exact absurd h5 hcap
          · simp [calculateTradeParameters, h1, h2, h3, h4, h5, not_lt.mp h5, eq_comm]

/-- **C4** — `calculateTradeParameters` returns `null` if and only if one of
the rejection conditions holds: non-positive (or missing) balance,
non-positive stop-loss distance, non-positive take-profit distance, the
capped pre-rounding size below the minimum tradeable size `0.0001`, or the
buffered required margin exceeding the balance; otherwise it returns trade
parameters.  (The function is pure; a `none` is a local rejection with no
retry.) -/
theorem riskManager_none_iff (cfg : RiskConfig) (balance lastPrice : ℚ)
    (sig : TradingSignal) :
    calculateTradeParameters cfg balance lastPrice sig = none ↔
      (balance ≤ 0 ∨ sig.stop_loss_distance_in_usd ≤ 0 ∨
       sig.take_profit_distance_in_usd ≤ 0 ∨
       cappedSize cfg balance lastPrice sig.stop_loss_distance_in_usd < 1/10000 ∨
       balance < marginRequired cfg balance lastPrice sig.stop_loss_distance_in_usd) := by
  by_cases h1 : balance ≤ 0
  · simp [calculateTradeParameters, h1]
  · by_cases h2 : sig.stop_loss_distance_in_usd ≤ 0
    · simp [calculateTradeParameters, h1, h2]
    · by_cases h3 : sig.take_profit_distance_in_usd ≤ 0
      · simp [calculateTradeParameters, h1, h2, h3]
      · by_cases h4 : balance <
            marginRequired cfg balance lastPrice sig.stop_loss_distance_in_usd
        · simp [calculateTradeParameters, h1, h2, h3, h4]
        · by_cases h5 : cappedSize cfg balance lastPrice
              sig.stop_loss_distance_in_usd < 1/10000
          · simp [calculateTradeParameters, h1, h2, h3, h4, h5]
          · simp [calculateTradeParameters, h1, h2, h3, h4, h5]

/-- Concrete evaluation of the sizer on scenario A's input
(shared by several witnesses below). -/
theorem scenarioA_eval :
    calculateTradeParameters backtestRiskCfg 10000 50000
      { signal := .LONG
        stop_loss_distance_in_usd := 100
        take_profit_distance_in_usd := 300 } =
      some { size := 19/10, stopLoss := 49900, takeProfit := 50300 } := by
  norm_num [calculateTradeParameters, cappedSize, rawSize, maxSizeBasedOnMargin,
    marginRequired, backtestRiskCfg, jsToFixed, round_eq, min_def]

/-- **C5** — end-to-end scenario A: with the backtest risk configuration
(leverage 10, margin buffer 0.01 — also the constructor's default), balance
10000, last close 50000 and a LONG signal with stop distance 100 and target
distance 300, the sizer returns size `1.9` (the minimum of raw size `2` and
margin-cap size `1.9`), stop-loss price `49900` and take-profit price
`50300`. -/
theorem riskManager_scenarioA :
    calculateTradeParameters backtestRiskCfg 10000 50000
      { signal := .LONG
        stop_loss_distance_in_usd := 100
        take_profit_distance_in_usd := 300 } =
      some { size := 19/10, stopLoss := 49900, takeProfit := 50300 } :=
  scenarioA_eval

/-- **C3 (counterexample)** — the claim that every non-null result's
returned size keeps `(size * lastPrice / leverage) * (1 + marginBuffer)`
within balance fails: with balance 1, leverage 10, margin buffer 0.01 and
last price 59375, the capped size `0.00016` passes the margin check, but
`toFixed(4)` rounds it up to `0.0002`, whose buffered margin `1.199375`
exceeds the balance `1`. -/
theorem riskManager_margin_bound_fails :
    (0:ℚ) < 1 ∧ (0:ℚ) < 100 ∧ (0:ℚ) < 300 ∧
    calculateTradeParameters backtestRiskCfg 1 59375
      { signal := .LONG
        stop_loss_distance_in_usd := 100
        take_profit_distance_in_usd := 300 } =
      some { size := 1/5000, stopLoss := 59275, takeProfit := 59675 } ∧
    ¬ ((1/5000 : ℚ) * 59375 / backtestRiskCfg.leverage *
        (1 + backtestRiskCfg.marginBuffer) ≤ 1) := by
  refine ⟨by norm_num, by norm_num, by norm_num, ?_, ?_⟩
  · norm_num [calculateTradeParameters, cappedSize, rawSize, maxSizeBasedOnMargin,
      marginRequired, backtestRiskCfg, jsToFixed, round_eq, min_def]
  · norm_num [backtestRiskCfg]

/-- **C3 (amended)** — for balance > 0, positive distances, positive last
price and leverage and non-negative margin buffer, every non-null result's
size obeys both budget bounds up to the `toFixed(4)` rounding slack of at
most `0.00005` units: `size * stopLossDistance ≤ balance * 0.02 + ε·sl`
and `(size * lastPrice / leverage) * (1 + marginBuffer) ≤ balance +
ε * lastPrice * (1 + marginBuffer) / leverage` with `ε = 0.00005`. -/
theorem riskManager_risk_and_margin_bounds (cfg : RiskConfig)
    (balance lastPrice : ℚ) (sig : TradingSignal) (p : TradeParams)
    (hb : 0 < balance) (hsl : 0 < sig.stop_loss_distance_in_usd)
    (hp : 0 < lastPrice) (hlev : 0 < cfg.leverage) (hmb : 0 ≤ cfg.marginBuffer)
    (h : calculateTradeParameters cfg balance lastPrice sig = some p) :
    p.size * sig.stop_loss_distance_in_usd ≤
      balance * (2/100) + (1/20000) * sig.stop_loss_distance_in_usd ∧
    p.size * lastPrice / cfg.leverage * (1 + cfg.marginBuffer) ≤
      balance + (1/20000) * lastPrice * (1 + cfg.marginBuffer) / cfg.leverage := by
  rw [calculateTradeParameters_eq_some_iff] at h
  obtain ⟨-, -, -, h4, -, hp⟩ := h
  have hsize : p.size = jsToFixed 4
      (cappedSize cfg balance lastPrice sig.stop_loss_distance_in_usd) := by
    rw [hp]
  have hround : p.size ≤
      cappedSize cfg balance lastPrice sig.stop_loss_distance_in_usd + 1/20000 := by
    rw [hsize]
    have := jsToFixed_le 4 (cappedSize cfg balance lastPrice sig.stop_loss_distance_in_usd)
    norm_num at this
    linarith
  push_neg at h4
  constructor
  · have hcap : cappedSize cfg balance lastPrice sig.stop_loss_distance_in_usd ≤
        rawSize balance sig.stop_loss_distance_in_usd := min_le_left _ _
    have hsz : p.size ≤ rawSize balance sig.stop_loss_distance_in_usd + 1/20000 := by
      linarith
    have hraw : rawSize balance sig.stop_loss_distance_in_usd *
        sig.stop_loss_distance_in_usd = balance * (2/100) := by
      unfold rawSize
      exact div_mul_cancel₀ _ (ne_of_gt hsl)
    calc p.size * sig.stop_loss_distance_in_usd
        ≤ (rawSize balance sig.stop_loss_distance_in_usd + 1/20000) *
            sig.stop_loss_distance_in_usd := by
          exact mul_le_mul_of_nonneg_right hsz (le_of_lt hsl)
      _ = balance * (2/100) + (1/20000) * sig.stop_loss_distance_in_usd := by
          rw [add_mul, hraw]
  · have hmargin : cappedSize cfg balance lastPrice sig.stop_loss_distance_in_usd *
        lastPrice / cfg.leverage * (1 + cfg.marginBuffer) ≤ balance := h4
    have hfac : 0 ≤ lastPrice / cfg.leverage * (1 + cfg.marginBuffer) := by positivity
    calc p.size * lastPrice / cfg.leverage * (1 + cfg.marginBuffer)
        = p.size * (lastPrice / cfg.leverage * (1 + cfg.marginBuffer)) := by ring
      _ ≤ (cappedSize cfg balance lastPrice sig.stop_loss_distance_in_usd + 1/20000) *
            (lastPrice / cfg.leverage * (1 + cfg.marginBuffer)) :=
          mul_le_mul_of_nonneg_right hround hfac
      _ = cappedSize cfg balance lastPrice sig.stop_loss_distance_in_usd *
            lastPrice / cfg.leverage * (1 + cfg.marginBuffer) +
          (1/20000) * lastPrice * (1 + cfg.marginBuffer) / cfg.leverage := by ring
      _ ≤ balance + (1/20000) * lastPrice * (1 + cfg.marginBuffer) / cfg.leverage := by
          linarith

/-- Witness for `riskManager_risk_and_margin_bounds` at scenario A's input. -/
theorem riskManager_risk_and_margin_bounds_witness :
    (0:ℚ) < 10000 ∧ (0:ℚ) < 100 ∧ (0:ℚ) < 50000 ∧
    (0:ℚ) < backtestRiskCfg.leverage ∧ (0:ℚ) ≤ backtestRiskCfg.marginBuffer ∧
    ((19/10 : ℚ) * 100 ≤ 10000 * (2/100) + (1/20000) * 100 ∧
     (19/10 : ℚ) * 50000 / backtestRiskCfg.leverage *
        (1 + backtestRiskCfg.marginBuffer) ≤
       10000 + (1/20000) * 50000 * (1 + backtestRiskCfg.marginBuffer) /
         backtestRiskCfg.leverage) :=
  ⟨by norm_num, by norm_num, by norm_num, by norm_num [backtestRiskCfg],
   by norm_num [backtestRiskCfg],
   riskManager_risk_and_margin_bounds backtestRiskCfg 10000 50000
     { signal := .LONG
       stop_loss_distance_in_usd := 100
       take_profit_distance_in_usd := 300 }
     { size := 19/10, stopLoss := 49900, takeProfit := 50300 }
     (by norm_num) (by norm_num) (by norm_num)
     (by norm_num [backtestRiskCfg]) (by norm_num [backtestRiskCfg])
     scenarioA_eval⟩

/-- **C8 (counterexample)** — the claim that the returned (rounded)
stop-loss price always lies strictly on the loss side and the take-profit
price strictly on the gain side of the last price fails: with last price
100 and distances `0.25`, `toFixed(0)` rounds both `99.75` and `100.25`
onto the entry reference price `100`. -/
theorem riskManager_price_sides_fail :
    (0:ℚ) < 10000 ∧ (0:ℚ) < 1/4 ∧
    calculateTradeParameters backtestRiskCfg 10000 100
      { signal := .LONG
        stop_loss_distance_in_usd := 1/4
        take_profit_distance_in_usd := 1/4 } =
      some { size := 800, stopLoss := 100, takeProfit := 100 } ∧
    ¬ ((100:ℚ) < 100) := by
  refine ⟨by norm_num, by norm_num, ?_, by norm_num⟩
  norm_num [calculateTradeParameters, cappedSize, rawSize, maxSizeBasedOnMargin,
    marginRequired, backtestRiskCfg, jsToFixed, round_eq, min_def]

/-- **C8 (amended)** — whenever both distances exceed half the price
increment (`> 0.5`), every non-null result's rounded stop-loss price lies
strictly on the loss side of the last price (below for LONG, above for
SHORT) and the rounded take-profit price strictly on the gain side; with
smaller distances the `toFixed(0)` rounding can land a price exactly on
the last price. -/
theorem riskManager_price_sides (cfg : RiskConfig) (balance lastPrice : ℚ)
    (sig : TradingSignal) (p : TradeParams)
    (hsl : 1/2 < sig.stop_loss_distance_in_usd)
    (htp : 1/2 < sig.take_profit_distance_in_usd)
    (h : calculateTradeParameters cfg balance lastPrice sig = some p) :
    (sig.signal = .LONG → p.stopLoss < lastPrice ∧ lastPrice < p.takeProfit) ∧
    (sig.signal = .SHORT → lastPrice < p.stopLoss ∧ p.takeProfit < lastPrice) := by
  rw [calculateTradeParameters_eq_some_iff] at h
  obtain ⟨-, -, -, -, -, hp⟩ := h
  have hslv : p.stopLoss = jsToFixed 0
      (if sig.signal = .LONG then lastPrice - sig.stop_loss_distance_in_usd
       else lastPrice + sig.stop_loss_distance_in_usd) := by rw [hp]
  have htpv : p.takeProfit = jsToFixed 0
      (if sig.signal = .LONG then lastPrice + sig.take_profit_distance_in_usd
       else lastPrice - sig.take_profit_distance_in_usd) := by rw [hp]
  constructor
  · intro hL
    rw [if_pos hL] at hslv
    rw [if_pos hL] at htpv
    constructor
    · have := jsToFixed_le 0 (lastPrice - sig.stop_loss_distance_in_usd)
      norm_num at this
      rw [hslv]; linarith
    · have := le_jsToFixed 0 (lastPrice + sig.take_profit_distance_in_usd)
      norm_num at this
      rw [htpv]; linarith
  · intro hS
    have hne : ¬ sig.signal = .LONG := by rw [hS]; intro hc; cases hc
    rw [if_neg hne] at hslv
    rw [if_neg hne] at htpv
    constructor
    · have := le_jsToFixed 0 (lastPrice + sig.stop_loss_distance_in_usd)
      norm_num at this
      rw [hslv]; linarith
    · have := jsToFixed_le 0 (lastPrice - sig.take_profit_distance_in_usd)
      norm_num at this
      rw [htpv]; linarith

/-- Witness for `riskManager_price_sides` at scenario A's input:
`49900 < 50000 < 50300`. -/
theorem riskManager_price_sides_witness :
    (1/2 : ℚ) < 100 ∧ (1/2 : ℚ) < 300 ∧
    ((Sig.LONG = Sig.LONG → (49900:ℚ) < 50000 ∧ (50000:ℚ) < 50300) ∧
     (Sig.LONG = Sig.SHORT → (50000:ℚ) < 49900 ∧ (50300:ℚ) < 50000)) :=
  ⟨by norm_num, by norm_num,
   riskManager_price_sides backtestRiskCfg 10000 50000
     { signal := .LONG
       stop_loss_distance_in_usd := 100
       take_profit_distance_in_usd := 300 }
     { size := 19/10, stopLoss := 49900, takeProfit := 50300 }
     (by norm_num) (by norm_num) scenarioA_eval⟩

end Sigtra

/-! ## BacktestRunner (backtestRunner.js) -/

namespace Sigtra

/-- One OHLC candle; only the fields the simulation loop reads. -/
structure Candle where
  timestamp : ℕ
  high : ℚ
  low : ℚ
  close : ℚ
deriving DecidableEq, Repr

/-- An open simulated trade as recorded by the backtest execution handler's
`placeOrder` (`{ signal, params, entryPrice, entryTime }`). -/
structure OpenTrade where
  signal : Sig
  size : ℚ
  stopLoss : ℚ
  takeProfit : ℚ
  entryPrice : ℚ
  entryTime : ℕ
deriving DecidableEq, Repr

/-- A closed simulated trade record. -/
structure SimClosedTrade where
  signal : Sig
  size : ℚ
  entryPrice : ℚ
  entryTime : ℕ
  exitPrice : ℚ
  exitTime : ℕ
  pnl : ℚ
deriving DecidableEq, Repr

/-- Modelled from the spec: the backtest execution handler's paper-account
state (`backtestExecutionHandler.js` is referenced by `backtestRunner.js`
but its source is not among the provided files).  Per the spec, at most one
Position is OPEN at a time; `balance` is the simulated account balance and
`trades` the append-only ClosedTrade ledger. -/
structure ExecState where
  balance : ℚ
  openTrade : Option OpenTrade
  trades : List SimClosedTrade
deriving DecidableEq, Repr

/-- The exit reason string set by `_checkExit`. -/
inductive ExitReason where
  | stopLoss
  | takeProfit
deriving DecidableEq, Repr

/-- The exit decision of `BacktestRunner._checkExit` (backtestRunner.js):
two sequential `if` statements per direction, the take-profit check
executed second and overwriting any stop-loss hit.  Returns the
`(exitPrice, exitReason)` pair left in the local variables, or `none` when
neither level is touched (or the trade direction is `HOLD`, which never
occurs for an open trade). -/
def checkExitOutcome (t : OpenTrade) (c : Candle) : Option (ℚ × ExitReason) :=
  if t.signal = .LONG then
    let r1 := if c.low ≤ t.stopLoss then some (t.stopLoss, ExitReason.stopLoss) else none
    if t.takeProfit ≤ c.high then some (t.takeProfit, ExitReason.takeProfit) else r1
  else if t.signal = .SHORT then
    let r1 := if t.stopLoss ≤ c.high then some (t.stopLoss, ExitReason.stopLoss) else none
    if c.low ≤ t.takeProfit then some (t.takeProfit, ExitReason.takeProfit) else r1
  else none

/-- Modelled from the spec: `closeTrade` of the backtest execution handler —
realize the PnL of the open position at the touched price, credit the
balance, append a ClosedTrade and transition to FLAT. -/
def closeTrade (st : ExecState) (t : OpenTrade) (exitPrice : ℚ) (ts : ℕ) : ExecState :=
  let pnl := (exitPrice - t.entryPrice) * t.size * (if t.signal = .LONG then 1 else -1)
  let rec_ : SimClosedTrade :=
    { signal := t.signal
      size := t.size
      entryPrice := t.entryPrice
      entryTime := t.entryTime
      exitPrice := exitPrice
      exitTime := ts
      pnl := pnl }
  { balance := st.balance + pnl
    openTrade := none
    trades := st.trades ++ [rec_] }

/-- `BacktestRunner._checkExit`: when the open trade's computed exit price
is truthy (JS `if (exitPrice)` — in particular not `0`), close the trade at
that price and timestamp; otherwise leave the state unchanged. -/
def checkExitStep (st : ExecState) (c : Candle) : ExecState :=
  match st.openTrade with
  | none => st
  | some t =>
    match checkExitOutcome t c with
    | none => st
    | some (p, _) => if p = 0 then st else closeTrade st t p c.timestamp

/-- The signal object returned by the strategy engine for one cycle
(the fields `_handleSignal` reads). -/
structure SignalRes where
  signal : Sig
  confidence : ℚ
  stop_loss_distance_in_usd : ℚ
  take_profit_distance_in_usd : ℚ
deriving DecidableEq, Repr

/-- Backtest configuration fields read by `BacktestRunner.run`. -/
structure SimCfg where
  WARMUP_PERIOD : ℕ
  MAX_API_CALLS : ℕ
  MINIMUM_CONFIDENCE_THRESHOLD : ℚ
deriving DecidableEq, Repr

/-- Modelled from the spec: the backtest execution handler's `placeOrder`
records the accepted signal as the open paper position at the current
candle's close. -/
def placeOrderSim (st : ExecState) (sig : Sig) (p : TradeParams)
    (entryPrice : ℚ) (entryTime : ℕ) : ExecState :=
  let t : OpenTrade :=
    { signal := sig
      size := p.size
      stopLoss := p.stopLoss
      takeProfit := p.takeProfit
      entryPrice := entryPrice
      entryTime := entryTime }
  { st with openTrade := some t }

/-- `BacktestRunner._handleSignal` at candle index `i`: the external Signal
Source (strategy engine, an AI call) is abstracted as `sigOf i`.  When the
signal is not HOLD and its confidence meets the threshold, the risk manager
is run against the simulated balance and the market window's last close
(`prevClose`, the close of candle `i − 1`), and a position is opened at the
current candle's close when `params.size > 0`. -/
def handleSignalStep (cfg : SimCfg) (sigOf : ℕ → SignalRes) (i : ℕ)
    (st : ExecState) (c : Candle) (prevClose : ℚ) : ExecState :=
  let sig := sigOf i
  if sig.signal ≠ .HOLD ∧ cfg.MINIMUM_CONFIDENCE_THRESHOLD ≤ sig.confidence then
    match calculateTradeParameters backtestRiskCfg st.balance prevClose
        { signal := sig.signal
          stop_loss_distance_in_usd := sig.stop_loss_distance_in_usd
          take_profit_distance_in_usd := sig.take_profit_distance_in_usd } with
    | some params =>
        if 0 < params.size then placeOrderSim st sig.signal params c.close c.timestamp
        else st
    | none => st
  else st

/-- The body of the candle loop of `BacktestRunner.run` over the remaining
candles: first the exit check when a trade is open, then — only when flat —
either the `break` when the external-call budget is exhausted
(`apiCalls >= MAX_API_CALLS`) or one more strategy call.  Returns the final
state together with the number of candles whose iteration ran to completion
(a `break` leaves the current candle's iteration incomplete). -/
def runAux (cfg : SimCfg) (sigOf : ℕ → SignalRes) :
    List Candle → ℕ → ℚ → ℕ → ExecState → ExecState × ℕ
  | [], _, _, _, st => (st, 0)
  | c :: rest, i, prevClose, apiCalls, st =>
    let st1 := checkExitStep st c
    match st1.openTrade with
    | some _ =>
      let r := runAux cfg sigOf rest (i+1) c.close apiCalls st1
      (r.1, r.2 + 1)
    | none =>
      if cfg.MAX_API_CALLS ≤ apiCalls then (st1, 0)
      else
        let st2 := handleSignalStep cfg sigOf i st1 c prevClose
        let r := runAux cfg sigOf rest (i+1) c.close (apiCalls + 1) st2
        (r.1, r.2 + 1)

/-- `BacktestRunner.run` on an already date-filtered candle list: fails when
there are fewer candles than the warm-up period, otherwise iterates from
index `WARMUP_PERIOD`, seeding the window's last close with the close of
candle `WARMUP_PERIOD − 1`. -/
def runSim (cfg : SimCfg) (sigOf : ℕ → SignalRes) (candles : List Candle)
    (initialBalance : ℚ) : Option (ExecState × ℕ) :=
  if candles.length < cfg.WARMUP_PERIOD then none
  else
    let prevClose := ((candles.take cfg.WARMUP_PERIOD).getLast?.map Candle.close).getD 0
    some (runAux cfg sigOf (candles.drop cfg.WARMUP_PERIOD) cfg.WARMUP_PERIOD
      prevClose 0 { balance := initialBalance, openTrade := none, trades := [] })

end Sigtra

/-! ## Claims C1 and C9 — BacktestRunner -/

namespace Sigtra

/-- **C1 (counterexample)** — the claim that the stop-loss takes precedence
when both levels are touched in one candle fails: for a LONG trade with
stop 90 and target 110 and a candle with low 80 and high 120 (both levels
touched), `_checkExit` leaves the take-profit exit, because its take-profit
`if` runs second and overwrites the stop-loss hit. -/
theorem checkExit_both_touched_counterexample :
    (80:ℚ) ≤ 90 ∧ (110:ℚ) ≤ 120 ∧
    checkExitOutcome
      { signal := .LONG, size := 1, stopLoss := 90, takeProfit := 110,
        entryPrice := 100, entryTime := 0 }
      { timestamp := 1, high := 120, low := 80, close := 100 } =
      some (110, ExitReason.takeProfit) ∧
    ¬ (checkExitOutcome
      { signal := .LONG, size := 1, stopLoss := 90, takeProfit := 110,
        entryPrice := 100, entryTime := 0 }
      { timestamp := 1, high := 120, low := 80, close := 100 } =
      some (90, ExitReason.stopLoss)) := by
  refine ⟨by norm_num, by norm_num, ?_, ?_⟩ <;>
    norm_num [checkExitOutcome]

/-- **C1 (amended)** — in the simulation engine's per-candle exit check,
for every open position whose stop-loss and take-profit levels are both
touched within the same candle, the take-profit takes precedence: the exit
decision is the take-profit price with reason take-profit (the take-profit
branch executes second and overwrites the stop-loss hit). -/
theorem checkExit_tp_precedence (t : OpenTrade) (c : Candle)
    (h : (t.signal = .LONG ∧ c.low ≤ t.stopLoss ∧ t.takeProfit ≤ c.high) ∨
         (t.signal = .SHORT ∧ t.stopLoss ≤ c.high ∧ c.low ≤ t.takeProfit)) :
    checkExitOutcome t c = some (t.takeProfit, ExitReason.takeProfit) := by
  rcases h with ⟨hs, h1, h2⟩ | ⟨hs, h1, h2⟩ <;>
    simp [checkExitOutcome, hs, h1, h2]

/-- Witness for `checkExit_tp_precedence` on a concrete SHORT trade:
stop 110, target 90, candle low 80 and high 120. -/
theorem checkExit_tp_precedence_witness :
    ((Sig.SHORT = Sig.LONG ∧ (80:ℚ) ≤ 110 ∧ (90:ℚ) ≤ 120) ∨
     (Sig.SHORT = Sig.SHORT ∧ (110:ℚ) ≤ 120 ∧ (80:ℚ) ≤ 90)) ∧
    checkExitOutcome
      { signal := .SHORT, size := 1, stopLoss := 110, takeProfit := 90,
        entryPrice := 100, entryTime := 0 }
      { timestamp := 1, high := 120, low := 80, close := 100 } =
      some (90, ExitReason.takeProfit) :=
  ⟨Or.inr ⟨rfl, by norm_num, by norm_num⟩,
   checkExit_tp_precedence
     { signal := .SHORT, size := 1, stopLoss := 110, takeProfit := 90,
       entryPrice := 100, entryTime := 0 }
     { timestamp := 1, high := 120, low := 80, close := 100 }
     (Or.inr ⟨rfl, by norm_num, by norm_num⟩)⟩

/-- **C9 (counterexample)** — the claim that the run always continues until
the candle stream is exhausted fails: with `MAX_API_CALLS = 0`, a warm-up
of 1 and three candles (so two candles to replay), the loop `break`s at the
first replayed candle while flat — zero iterations complete even though two
candles remain. -/
theorem runSim_budget_break_counterexample :
    runSim { WARMUP_PERIOD := 1, MAX_API_CALLS := 0,
             MINIMUM_CONFIDENCE_THRESHOLD := 0 }
        (fun _ => { signal := .HOLD, confidence := 0,
                    stop_loss_distance_in_usd := 0,
                    take_profit_distance_in_usd := 0 })
        [{ timestamp := 0, high := 1, low := 1, close := 1 },
         { timestamp := 1, high := 1, low := 1, close := 1 },
         { timestamp := 2, high := 1, low := 1, close := 1 }] 1000 =
      some ({ balance := 1000, openTrade := none, trades := [] }, 0) ∧
    (List.drop 1
      [({ timestamp := 0, high := 1, low := 1, close := 1 } : Candle),
       { timestamp := 1, high := 1, low := 1, close := 1 },
       { timestamp := 2, high := 1, low := 1, close := 1 }]).length = 2 ∧
    (0 : ℕ) ≠ 2 := by
  refine ⟨?_, by norm_num, by norm_num⟩
  norm_num [runSim, runAux, checkExitStep]

/-- **C9 (amended)** — with the external-call budget exhausted
(`apiCalls ≥ MAX_API_CALLS`), the candle loop never force-closes an open
position: if a position is still open after the exit check, the loop
simply continues to the next candle (making no strategy call); but as soon
as the engine is flat after the exit check, the loop `break`s — ending the
replay early rather than continuing to the end of the candle stream. -/
theorem runAux_budget_semantics (cfg : SimCfg) (sigOf : ℕ → SignalRes)
    (c : Candle) (rest : List Candle) (i : ℕ) (prevClose : ℚ)
    (apiCalls : ℕ) (st : ExecState)
    (hbudget : cfg.MAX_API_CALLS ≤ apiCalls) :
    ((checkExitStep st c).openTrade.isSome →
      runAux cfg sigOf (c :: rest) i prevClose apiCalls st =
        ((runAux cfg sigOf rest (i+1) c.close apiCalls (checkExitStep st c)).1,
         (runAux cfg sigOf rest (i+1) c.close apiCalls (checkExitStep st c)).2 + 1)) ∧
    ((checkExitStep st c).openTrade = none →
      runAux cfg sigOf (c :: rest) i prevClose apiCalls st =
        (checkExitStep st c, 0)) := by
  constructor
  · intro h
    obtain ⟨t, ht⟩ := Option.isSome_iff_exists.mp h
    rw [runAux]
    simp only [ht]
  · intro h
    rw [runAux]
    simp only [h, if_pos hbudget]

/-- Witness for `runAux_budget_semantics` on a concrete flat state with the
budget exhausted: the loop returns immediately. -/
theorem runAux_budget_semantics_witness :
    (0 : ℕ) ≤ 0 ∧
    (((checkExitStep { balance := 1000, openTrade := none, trades := [] }
        { timestamp := 0, high := 1, low := 1, close := 1 }).openTrade.isSome →
      runAux { WARMUP_PERIOD := 1, MAX_API_CALLS := 0,
               MINIMUM_CONFIDENCE_THRESHOLD := 0 }
          (fun _ => { signal := .HOLD, confidence := 0,
                      stop_loss_distance_in_usd := 0,
                      take_profit_distance_in_usd := 0 })
          [{ timestamp := 0, high := 1, low := 1, close := 1 }] 1 0 0
          { balance := 1000, openTrade := none, trades := [] } =
        ((runAux { WARMUP_PERIOD := 1, MAX_API_CALLS := 0,
                   MINIMUM_CONFIDENCE_THRESHOLD := 0 }
            (fun _ => { signal := .HOLD, confidence := 0,
                        stop_loss_distance_in_usd := 0,
                        take_profit_distance_in_usd := 0 })
            [] 2 1 0
            (checkExitStep { balance := 1000, openTrade := none, trades := [] }
              { timestamp := 0, high := 1, low := 1, close := 1 })).1,
         (runAux { WARMUP_PERIOD := 1, MAX_API_CALLS := 0,
                   MINIMUM_CONFIDENCE_THRESHOLD := 0 }
            (fun _ => { signal := .HOLD, confidence := 0,
                        stop_loss_distance_in_usd := 0,
                        take_profit_distance_in_usd := 0 })
            [] 2 1 0
            (checkExitStep { balance := 1000, openTrade := none, trades := [] }
              { timestamp := 0, high := 1, low := 1, close := 1 })).2 + 1)) ∧
     ((checkExitStep { balance := 1000, openTrade := none, trades := [] }
        { timestamp := 0, high := 1, low := 1, close := 1 }).openTrade = none →
      runAux { WARMUP_PERIOD := 1, MAX_API_CALLS := 0,
               MINIMUM_CONFIDENCE_THRESHOLD := 0 }
          (fun _ => { signal := .HOLD, confidence := 0,
                      stop_loss_distance_in_usd := 0,
                      take_profit_distance_in_usd := 0 })
          [{ timestamp := 0, high := 1, low := 1, close := 1 }] 1 0 0
          { balance := 1000, openTrade := none, trades := [] } =
        (checkExitStep { balance := 1000, openTrade := none, trades := [] }
          { timestamp := 0, high := 1, low := 1, close := 1 }, 0))) :=
  ⟨le_refl 0,
   runAux_budget_semantics
     { WARMUP_PERIOD := 1, MAX_API_CALLS := 0, MINIMUM_CONFIDENCE_THRESHOLD := 0 }
     (fun _ => { signal := .HOLD, confidence := 0,
                 stop_loss_distance_in_usd := 0,
                 take_profit_distance_in_usd := 0 })
     { timestamp := 0, high := 1, low := 1, close := 1 } [] 1 0 0
     { balance := 1000, openTrade := none, trades := [] }
     (le_refl 0)⟩

end Sigtra

/-! ## FIFO fill-to-trade matching (`buildLast10ClosedFromRawFills`) -/

namespace Sigtra

/-- A raw venue fill as consumed by `buildLast10ClosedFromRawFills`. -/
structure RawFill where
  side : Side
  size : ℚ
  price : ℚ
  fillTime : ℕ
deriving DecidableEq, Repr

/-- A queued open lot of `buildLast10ClosedFromRawFills`. -/
structure FifoLot where
  side : Sig
  entryTime : ℕ
  entryPrice : ℚ
  size : ℚ
deriving DecidableEq, Repr

/-- A closed trade emitted by `buildLast10ClosedFromRawFills`. -/
structure FifoClosed where
  side : Sig
  entryTime : ℕ
  entryPrice : ℚ
  exitTime : ℕ
  exitPrice : ℚ
  size : ℚ
  pnl : ℚ
deriving DecidableEq, Repr

/-- The inner `while` loop of `buildLast10ClosedFromRawFills`: consume
opposing lots from the front of the queue, oldest first, emitting one
closed trade per matched lot, until the fill's remaining size is used up,
the queue is empty, or its head is no longer opposing.  Returns the emitted
trades, the fill's remaining size and the remaining queue.  (When a lot is
only partially consumed it is put back at the front; the remaining size is
then exhausted, which the source re-checks via the loop condition and this
translation returns directly.) -/
def consumeFIFO (side : Sig) (price : ℚ) (ftime : ℕ) :
    ℚ → List FifoLot → List FifoClosed × ℚ × List FifoLot
  | remaining, [] => ([], remaining, [])
  | remaining, lot :: rest =>
    if remaining ≤ 0 ∨ lot.side = side then ([], remaining, lot :: rest)
    else
      let m := min remaining lot.size
      let pnl := (price - lot.entryPrice) * m * (if lot.side = .LONG then 1 else -1)
      let ct : FifoClosed :=
        { side := lot.side
          entryTime := lot.entryTime
          entryPrice := lot.entryPrice
          exitTime := ftime
          exitPrice := price
          size := m
          pnl := pnl }
      let newSize := lot.size - m
      if 0 < newSize then
        ([ct], remaining - m, { lot with size := newSize } :: rest)
      else
        let r := consumeFIFO side price ftime (remaining - m) rest
        (ct :: r.1, r.2.1, r.2.2)

/-- The per-fill body of `buildLast10ClosedFromRawFills`' `for` loop: a
`buy` fill is a LONG lot, a `sell` fill a SHORT lot; push when the queue is
empty or its newest lot is same-sided, otherwise match against the queue
front and push any unfilled remainder (a direction flip within one fill). -/
def fifoFillStep (st : List FifoLot × List FifoClosed) (f : RawFill) :
    List FifoLot × List FifoClosed :=
  let side := if f.side = .buy then Sig.LONG else Sig.SHORT
  let newLot : FifoLot :=
    { side := side, entryTime := f.fillTime, entryPrice := f.price, size := f.size }
  match st.1.getLast? with
  | none => (st.1 ++ [newLot], st.2)
  | some last =>
    if last.side = side then (st.1 ++ [newLot], st.2)
    else
      let r := consumeFIFO side f.price f.fillTime f.size st.1
      let q :=
        if 0 < r.2.1 then
          r.2.2 ++ [{ side := side, entryTime := f.fillTime,
                      entryPrice := f.price, size := r.2.1 }]
        else r.2.2
      (q, st.2 ++ r.1)

/-- FIFO matching of a chronological fill stream: the `for` loop of
`buildLast10ClosedFromRawFills` over its (reversed, hence chronological)
fills, returning the full ordered `closed` list. -/
def fifoMatchFills (fills : List RawFill) : List FifoClosed :=
  (fills.foldl fifoFillStep ([], [])).2

/-- `buildLast10ClosedFromRawFills(rawFills, n)`: drop fills from before
the bot's start time, reverse the venue-reported (newest-first) order into
chronological order, match, and return the last `n` closed trades
newest-first (`closed.slice(-n).reverse()`). -/
def buildLast10ClosedFromRawFills (botStart : ℕ) (rawFills : List RawFill)
    (n : ℕ) : List FifoClosed :=
  let eligible := rawFills.filter (fun f => botStart ≤ f.fillTime)
  let closed := fifoMatchFills eligible.reverse
  (if n = 0 then closed else closed.drop (closed.length - n)).reverse

/-- **C2** — scenario B: for the chronological fill stream
`[buy 1@100, buy 1@101, sell 2@105]`, FIFO matching emits exactly two
closed trades in order: `(entry 100, exit 105, size 1, pnl 5)` then
`(entry 101, exit 105, size 1, pnl 4)` — the second same-side buy is
pushed as a new lot closing nothing, and the opposing sell consumes the
oldest lot first. -/
theorem fifoMatch_scenarioB :
    fifoMatchFills
      [{ side := .buy, size := 1, price := 100, fillTime := 1 },
       { side := .buy, size := 1, price := 101, fillTime := 2 },
       { side := .sell, size := 2, price := 105, fillTime := 3 }] =
      [{ side := .LONG, entryTime := 1, entryPrice := 100, exitTime := 3,
         exitPrice := 105, size := 1, pnl := 5 },
       { side := .LONG, entryTime := 2, entryPrice := 101, exitTime := 3,
         exitPrice := 105, size := 1, pnl := 4 }] := by
  have c2 : consumeFIFO .SHORT 105 3 1
      [{ side := .LONG, entryTime := 2, entryPrice := 101, size := 1 }] =
      ([{ side := .LONG, entryTime := 2, entryPrice := 101, exitTime := 3,
          exitPrice := 105, size := 1, pnl := 4 }], 0, []) := by
    norm_num [consumeFIFO]
  have c1 : consumeFIFO .SHORT 105 3 2
      [{ side := .LONG, entryTime := 1, entryPrice := 100, size := 1 },
       { side := .LONG, entryTime := 2, entryPrice := 101, size := 1 }] =
      ([{ side := .LONG, entryTime := 1, entryPrice := 100, exitTime := 3,
          exitPrice := 105, size := 1, pnl := 5 },
        { side := .LONG, entryTime := 2, entryPrice := 101, exitTime := 3,
          exitPrice := 105, size := 1, pnl := 4 }], 0, []) := by
    rw [consumeFIFO]
    norm_num [c2]
  have s1 : fifoFillStep ([], []) { side := .buy, size := 1, price := 100, fillTime := 1 } =
      ([{ side := .LONG, entryTime := 1, entryPrice := 100, size := 1 }], []) := by
    norm_num [fifoFillStep]
  have s2 : fifoFillStep
      ([{ side := .LONG, entryTime := 1, entryPrice := 100, size := 1 }], [])
      { side := .buy, size := 1, price := 101, fillTime := 2 } =
      ([{ side := .LONG, entryTime := 1, entryPrice := 100, size := 1 },
        { side := .LONG, entryTime := 2, entryPrice := 101, size := 1 }], []) := by
    norm_num [fifoFillStep]
  have s3 : fifoFillStep
      ([{ side := .LONG, entryTime := 1, entryPrice := 100, size := 1 },
        { side := .LONG, entryTime := 2, entryPrice := 101, size := 1 }], [])
      { side := .sell, size := 2, price := 105, fillTime := 3 } =
      ([], [{ side := .LONG, entryTime := 1, entryPrice := 100, exitTime := 3,
              exitPrice := 105, size := 1, pnl := 5 },
            { side := .LONG, entryTime := 2, entryPrice := 101, exitTime := 3,
              exitPrice := 105, size := 1, pnl := 4 }]) := by
    norm_num [fifoFillStep, c1]
  rw [fifoMatchFills, List.foldl_cons, s1, List.foldl_cons, s2,
    List.foldl_cons, s3, List.foldl_nil]

end Sigtra

/-! ## `DataHandler.realizedPnlStatsFromFills` (dataHandler.js) -/

namespace Sigtra

/-- A fill as consumed by `realizedPnlStatsFromFills`. -/
structure PnlFill where
  side : Side
  size : ℚ
  price : ℚ
deriving DecidableEq, Repr

/-- A queued lot of `realizedPnlStatsFromFills` (`{ side, size, price }`,
size stored unsigned). -/
structure PnlLot where
  side : Side
  size : ℚ
  price : ℚ
deriving DecidableEq, Repr

/-- The running statistics accumulated by `realizedPnlStatsFromFills`. -/
structure PnlStats where
  realisedPnL : ℚ
  winCount : ℕ
  totalCloses : ℕ
deriving DecidableEq, Repr

/-- `Math.sign` on `ℚ`. -/
def ratSign (q : ℚ) : ℚ := if 0 < q then 1 else if q < 0 then -1 else 0

/-- The inner `while` loop of `realizedPnlStatsFromFills`: while the signed
remaining size is non-zero and the queue is non-empty, match against the
head lot — crediting PnL only when the fill's sign opposes the head's —
and shrink the head or the remaining size.  Note that the head is consumed
whether or not its side opposes the fill.  Returns the remaining signed
size, the remaining queue and the updated statistics.  (When the head is
only partially consumed the remaining size becomes zero, which the source
re-checks via the loop condition and this translation returns directly.) -/
def pnlConsume (price : ℚ) : ℚ → List PnlLot → PnlStats → ℚ × List PnlLot × PnlStats
  | size, [], st => (size, [], st)
  | size, head :: rest, st =>
    if size = 0 then (size, head :: rest, st)
    else
      let headQty := if head.side = .buy then head.size else -head.size
      let m := min |size| |headQty|
      let closeSide : Side := if 0 < size then .buy else .sell
      let openSide : Side := if 0 < headQty then .buy else .sell
      let st' :=
        if closeSide ≠ openSide then
          let pnl := (price - head.price) * m * head.price
          { realisedPnL := st.realisedPnL + pnl
            winCount := if 0 < pnl then st.winCount + 1 else st.winCount
            totalCloses := st.totalCloses + 1 }
        else st
      if |headQty| = m then
        pnlConsume price (size - m * ratSign size) rest st'
      else
        (size - m * ratSign size,
         { head with size := head.size - m * ratSign headQty } :: rest, st')

/-- The per-fill body of `realizedPnlStatsFromFills`' `for` loop: sign the
size (`sell` negative), run the matching loop, and push any non-zero
remainder as a new lot. -/
def pnlFillStep (acc : List PnlLot × PnlStats) (f : PnlFill) :
    List PnlLot × PnlStats :=
  let signed := if f.side = .sell then -f.size else f.size
  let r := pnlConsume f.price signed acc.1 acc.2
  let q :=
    if r.1 ≠ 0 then
      r.2.1 ++ [{ side := if 0 < r.1 then Side.buy else Side.sell,
                  size := |r.1|, price := f.price }]
    else r.2.1
  (q, r.2.2)

/-- `realizedPnlStatsFromFills(fills)`: fold the fills through the matcher
starting from an empty queue and zeroed statistics. -/
def realizedPnlStatsFromFills (fills : List PnlFill) : PnlStats :=
  (fills.foldl pnlFillStep ([], ⟨0, 0, 0⟩)).2

/-- The open-lot queue left by `realizedPnlStatsFromFills` after processing
a fill stream (the matcher's internal state; running this on every prefix
of a stream gives the queue at every step). -/
def pnlQueueAfter (fills : List PnlFill) : List PnlLot :=
  (fills.foldl pnlFillStep ([], ⟨0, 0, 0⟩)).1

/-- The matching loop never lengthens the queue. -/
theorem pnlConsume_queue_length (price : ℚ) :
    ∀ (q : List PnlLot) (size : ℚ) (st : PnlStats),
      ((pnlConsume price size q st).2.1).length ≤ q.length := by
  intro q
  induction q with
  | nil =>
    intro size st
    simp [pnlConsume]
  | cons head rest ih =>
    intro size st
    rw [pnlConsume]
    dsimp only
    by_cases h1 : size = 0
    · rw [if_pos h1]
    · rw [if_neg h1]
      by_cases h2 : abs (if head.side = Side.buy then head.size else -head.size) =
          min |size| (abs (if head.side = Side.buy then head.size else -head.size))
      · rw [if_pos h2]
        exact le_trans (ih _ _) (Nat.le_succ _)
      · rw [if_neg h2]
        simp

/-- `size − |size| · sign(size) = 0` — the arithmetic behind the matcher's
remainder going to zero whenever a head lot is only partially consumed. -/
theorem sub_abs_mul_ratSign (size : ℚ) : size - |size| * ratSign size = 0 := by
  rcases lt_trichotomy size 0 with h | h | h
  · rw [ratSign, if_neg (by linarith), if_pos h, abs_of_neg h]
    ring
  · simp [h, ratSign]
  · rw [ratSign, if_pos h, abs_of_pos h]
    ring

/-- If the matching loop leaves a non-zero remaining size, it has emptied
the queue: a partially-consumed head always zeroes the remainder. -/
theorem pnlConsume_rem_ne_zero (price : ℚ) :
    ∀ (q : List PnlLot) (size : ℚ) (st : PnlStats),
      (pnlConsume price size q st).1 ≠ 0 → (pnlConsume price size q st).2.1 = [] := by
  intro q
  induction q with
  | nil =>
    intro size st _
    simp [pnlConsume]
  | cons head rest ih =>
    intro size st hne
    rw [pnlConsume] at hne ⊢
    dsimp only at hne ⊢
    by_cases h1 : size = 0
    · rw [if_pos h1] at hne
      exact absurd h1 (by simpa using hne)
    · rw [if_neg h1] at hne ⊢
      by_cases h2 : abs (if head.side = Side.buy then head.size else -head.size) =
          min |size| (abs (if head.side = Side.buy then head.size else -head.size))
      · rw [if_pos h2] at hne ⊢
        exact ih _ _ hne
      · rw [if_neg h2] at hne ⊢
        exfalso
        apply hne
        show size - min |size|
            (abs (if head.side = Side.buy then head.size else -head.size)) *
              ratSign size = 0
        have hm : min |size|
            (abs (if head.side = Side.buy then head.size else -head.size)) = |size| := by
          rcases min_choice |size|
              (abs (if head.side = Side.buy then head.size else -head.size)) with hm | hm
          · exact hm
          · exact absurd hm.symm h2
        rw [hm, sub_abs_mul_ratSign]

/-- Processing one fill keeps the queue at most one lot long: the new lot
is pushed only when the matching loop has left a non-zero remainder, which
forces an emptied queue. -/
theorem pnlFillStep_queue_le_one (acc : List PnlLot × PnlStats) (f : PnlFill)
    (h : acc.1.length ≤ 1) : ((pnlFillStep acc f).1).length ≤ 1 := by
  rw [pnlFillStep]
  dsimp only
  by_cases hne : (pnlConsume f.price
      (if f.side = Side.sell then -f.size else f.size) acc.1 acc.2).1 ≠ 0
  · rw [if_pos hne]
    rw [pnlConsume_rem_ne_zero f.price acc.1 _ acc.2 hne]
    simp
  · rw [if_neg hne]
    exact le_trans (pnlConsume_queue_length f.price acc.1 _ acc.2) h

/-- The queue invariant is preserved along any fold of the matcher. -/
theorem pnlFold_queue_le_one (fills : List PnlFill) :
    ∀ acc : List PnlLot × PnlStats, acc.1.length ≤ 1 →
      ((fills.foldl pnlFillStep acc).1).length ≤ 1 := by
  induction fills with
  | nil =>
    intro acc h
    simpa using h
  | cons f rest ih =>
    intro acc h
    rw [List.foldl_cons]
    exact ih _ (pnlFillStep_queue_le_one acc f h)

/-- **C10** — the open-lot queue of `realizedPnlStatsFromFills` never holds
more than one lot, on any fill stream (hence at every step, this being
closed under prefixes): every incoming fill consumes the queued head lot
whether its side matches or opposes it, so a new lot is pushed only once
the inner matching loop has emptied the queue — as the second conjunct
states, a non-zero remainder implies an emptied queue. -/
theorem realizedPnl_queue_at_most_one_lot :
    (∀ fills : List PnlFill, (pnlQueueAfter fills).length ≤ 1) ∧
    (∀ (price sz : ℚ) (q : List PnlLot) (st : PnlStats),
      (pnlConsume price sz q st).1 ≠ 0 → (pnlConsume price sz q st).2.1 = []) :=
  ⟨fun fills => pnlFold_queue_le_one fills ([], ⟨0, 0, 0⟩) (by simp),
   fun price sz q st hne => pnlConsume_rem_ne_zero price q sz st hne⟩

/-- Witness for `realizedPnl_queue_at_most_one_lot`: the queue after two
same-side buys holds at most one lot (the matcher consumed the first), and
a sell of 2 against a single long lot of 1 leaves a non-zero remainder and
an emptied queue. -/
theorem realizedPnl_queue_at_most_one_lot_witness :
    (pnlQueueAfter
      [{ side := .buy, size := 1, price := 100 },
       { side := .buy, size := 1, price := 101 }]).length ≤ 1 ∧
    (pnlConsume 105 (-2)
      [{ side := .buy, size := 1, price := 100 }] ⟨0, 0, 0⟩).2.1 = [] :=
  ⟨realizedPnl_queue_at_most_one_lot.1
     [{ side := .buy, size := 1, price := 100 },
      { side := .buy, size := 1, price := 101 }],
   realizedPnl_queue_at_most_one_lot.2 105 (-2)
     [{ side := .buy, size := 1, price := 100 }] ⟨0, 0, 0⟩
     (by norm_num [pnlConsume, ratSign])⟩


end Sigtra

/-! ## ExecutionHandler (executionHandler.js) -/

namespace Sigtra

/-- Outcome of a venue API call: either it throws (network/API failure) or
it returns a value. -/
inductive ApiResult (α : Type) where
  | throws
  | returns (a : α)
deriving DecidableEq, Repr

/-- The `sendstatus` object of a successful `sendOrder` response; only the
`order_id` field is read. -/
structure SendStatus where
  order_id : ℕ
deriving DecidableEq, Repr

/-- The fields of a `sendOrder` response that `placeOrder` checks. -/
structure EntryResponse where
  result : String
  sendstatus : Option SendStatus
deriving DecidableEq, Repr

/-- An order row of the recent-orders view polled by `monitorOrderFill`;
only `orderId`, `isFilled` and `averagePrice` are read. -/
structure RecOrder where
  orderId : ℕ
  isFilled : Bool
  averagePrice : ℚ
deriving DecidableEq, Repr

/-- An entry in the exit batch payload built by `placeExitOrders`
(`stopPrice` is `none` for the plain take-profit limit order). -/
structure BatchEntry where
  order_tag : String
  orderType : String
  side : Side
  size : ℚ
  limitPrice : ℚ
  stopPrice : Option ℚ
  reduceOnly : Bool
deriving DecidableEq, Repr

/-- The entry order spec submitted by `placeOrder` step 1: a non-reduce-only
market order on the signal's side, sized to `params.size` (`limitPrice`
and `stopPrice` unused for a market order). -/
def entryOrderSpec (signal : Sig) (size : ℚ) : BatchEntry :=
  { order_tag := "entry"
    orderType := "mkt"
    side := if signal = .LONG then Side.buy else Side.sell
    size := size
    limitPrice := 0
    stopPrice := none
    reduceOnly := false }

/-- `TIMEOUT_MS` of `monitorOrderFill`. -/
def TIMEOUT_MS : ℕ := 60000

/-- `POLL_INTERVAL_MS` of `monitorOrderFill`. -/
def POLL_INTERVAL_MS : ℕ := 5000

/-- One poll iteration of `monitorOrderFill`: a throwing
`getRecentOrders` call is caught and polling continues; otherwise the
order is looked up by id and returned only if reported filled. -/
def pollHit (pr : ApiResult (List RecOrder)) (oid : ℕ) : Option RecOrder :=
  match pr with
  | .throws => none
  | .returns os =>
    match os.find? (fun o => o.orderId = oid) with
    | some o => if o.isFilled then some o else none
    | none => none

/-- The poll loop of `monitorOrderFill`, with `fuel` iterations remaining
and `i` the index of the next poll in the abstract poll stream. -/
def monitorGo (polls : ℕ → ApiResult (List RecOrder)) (oid : ℕ) :
    ℕ → ℕ → Option RecOrder
  | 0, _ => none
  | fuel + 1, i =>
    match pollHit (polls i) oid with
    | some o => some o
    | none => monitorGo polls oid fuel (i + 1)

/-- `ExecutionHandler.monitorOrderFill`: poll the recent-orders view every
`POLL_INTERVAL_MS` within the `TIMEOUT_MS` budget — at the stated cadence
the wall-clock `while` loop admits `TIMEOUT_MS / POLL_INTERVAL_MS = 12`
poll iterations — returning the filled order or `none` on timeout. -/
def monitorOrderFill (polls : ℕ → ApiResult (List RecOrder)) (oid : ℕ) :
    Option RecOrder :=
  monitorGo polls oid (TIMEOUT_MS / POLL_INTERVAL_MS) 0

/-- `ExecutionHandler.placeExitOrders`: the single batch payload submitted
in one `batchOrder` call — a reduce-only stop-limit order whose limit price
is offset 1% through the stop trigger (`Math.round`ed), followed by a
reduce-only take-profit limit order, both on the side closing the
position. -/
def placeExitOrders (signal : Sig) (size stopLoss takeProfit : ℚ) :
    List BatchEntry :=
  let closeSide := if signal = .LONG then Side.sell else Side.buy
  let stopSlippagePercent : ℚ := 1/100
  let stopLimitPrice :=
    if closeSide = .sell then mathRound (stopLoss * (1 - stopSlippagePercent))
    else mathRound (stopLoss * (1 + stopSlippagePercent))
  [{ order_tag := "stop-loss"
     orderType := "stp"
     side := closeSide
     size := size
     limitPrice := stopLimitPrice
     stopPrice := some stopLoss
     reduceOnly := true },
   { order_tag := "take-profit"
     orderType := "lmt"
     side := closeSide
     size := size
     limitPrice := takeProfit
     stopPrice := none
     reduceOnly := true }]

/-- `ExecutionHandler.placeOrder`: submit the entry, and throw
(`Except.error`) when the submission throws, returns a malformed/null
response, a non-`success` result or no `sendstatus`; otherwise monitor the
entry order for its fill and — only when the fill is confirmed — submit
the exit batch.  The value collects the exit batches submitted during the
run (a timeout returns without submitting any). -/
def placeOrder (sendRes : ApiResult (Option EntryResponse))
    (polls : ℕ → ApiResult (List RecOrder)) (signal : Sig)
    (size stopLoss takeProfit : ℚ) : Except Unit (List (List BatchEntry)) :=
  match sendRes with
  | .throws => .error ()
  | .returns none => .error ()
  | .returns (some r) =>
    if r.result ≠ "success" then .error ()
    else
      match r.sendstatus with
      | none => .error ()
      | some ss =>
        match monitorOrderFill polls ss.order_id with
        | none => .ok []
        | some _ => .ok [placeExitOrders signal size stopLoss takeProfit]

/-- The exit batches actually submitted by a `placeOrder` run (none when
the run threw). -/
def exitBatchesOf (r : Except Unit (List (List BatchEntry))) :
    List (List BatchEntry) :=
  match r with
  | .error _ => []
  | .ok l => l

/-- The entry-acceptance check of `placeOrder` step 1, condensed: the
accepted order's id, or `none` when the submission threw or the response
was malformed. -/
def entryAccepted (sendRes : ApiResult (Option EntryResponse)) : Option ℕ :=
  match sendRes with
  | .throws => none
  | .returns none => none
  | .returns (some r) =>
    if r.result ≠ "success" then none
    else r.sendstatus.map SendStatus.order_id

end Sigtra

/-! ## Claims C6 and C7 — ExecutionHandler -/

namespace Sigtra

/-- **C6** — after the entry order is confirmed filled, `placeOrder`
submits exactly one batch of exactly two orders: a reduce-only stop-limit
order whose limit price is offset 1% through the stop trigger price
(below the trigger when closing by selling, above when closing by buying),
and a reduce-only take-profit limit order at the take-profit price — both
on the side opposite the entry order and both sized to the entry order's
(confirmed-filled) quantity. -/
theorem placeOrder_confirmed_exit_batch
    (sendRes : ApiResult (Option EntryResponse))
    (polls : ℕ → ApiResult (List RecOrder)) (signal : Sig)
    (size stopLoss takeProfit : ℚ) (r : EntryResponse) (ss : SendStatus)
    (ord : RecOrder)
    (hr : sendRes = .returns (some r)) (hres : r.result = "success")
    (hss : r.sendstatus = some ss)
    (hfill : monitorOrderFill polls ss.order_id = some ord) :
    exitBatchesOf (placeOrder sendRes polls signal size stopLoss takeProfit) =
      [placeExitOrders signal size stopLoss takeProfit] ∧
    placeExitOrders signal size stopLoss takeProfit =
      [{ order_tag := "stop-loss"
         orderType := "stp"
         side := (entryOrderSpec signal size).side.opp
         size := (entryOrderSpec signal size).size
         limitPrice := if signal = .LONG then mathRound (stopLoss * (1 - 1/100))
           else mathRound (stopLoss * (1 + 1/100))
         stopPrice := some stopLoss
         reduceOnly := true },
       { order_tag := "take-profit"
         orderType := "lmt"
         side := (entryOrderSpec signal size).side.opp
         size := (entryOrderSpec signal size).size
         limitPrice := takeProfit
         stopPrice := none
         reduceOnly := true }] := by
  subst hr
  constructor
  · rw [placeOrder]
    simp only [hres, hss, hfill]
    simp [exitBatchesOf]
  · cases signal <;>
      simp [placeExitOrders, entryOrderSpec, Side.opp]

/-- Witness for `placeOrder_confirmed_exit_batch` on a concrete confirmed
fill: order id 7 reported filled on the first poll. -/
theorem placeOrder_confirmed_exit_batch_witness :
    (ApiResult.returns (some ({ result := "success", sendstatus := some ⟨7⟩ } :
        EntryResponse)) =
      ApiResult.returns (some ({ result := "success", sendstatus := some ⟨7⟩ } :
        EntryResponse))) ∧
    monitorOrderFill
      (fun _ => .returns [{ orderId := 7, isFilled := true, averagePrice := 50000 }])
      (7 : ℕ) = some { orderId := 7, isFilled := true, averagePrice := 50000 } ∧
    (exitBatchesOf (placeOrder
        (.returns (some { result := "success", sendstatus := some ⟨7⟩ }))
        (fun _ => .returns [{ orderId := 7, isFilled := true, averagePrice := 50000 }])
        .LONG (19/10) 49900 50300) =
      [placeExitOrders .LONG (19/10) 49900 50300] ∧
     placeExitOrders .LONG (19/10) 49900 50300 =
      [{ order_tag := "stop-loss"
         orderType := "stp"
         side := (entryOrderSpec .LONG (19/10)).side.opp
         size := (entryOrderSpec .LONG (19/10)).size
         limitPrice := if Sig.LONG = .LONG then mathRound (49900 * (1 - 1/100))
           else mathRound (49900 * (1 + 1/100))
         stopPrice := some 49900
         reduceOnly := true },
       { order_tag := "take-profit"
         orderType := "lmt"
         side := (entryOrderSpec .LONG (19/10)).side.opp
         size := (entryOrderSpec .LONG (19/10)).size
         limitPrice := 50300
         stopPrice := none
         reduceOnly := true }]) :=
  ⟨rfl, rfl,
   placeOrder_confirmed_exit_batch
     (.returns (some { result := "success", sendstatus := some ⟨7⟩ }))
     (fun _ => .returns [{ orderId := 7, isFilled := true, averagePrice := 50000 }])
     .LONG (19/10) 49900 50300
     { result := "success", sendstatus := some ⟨7⟩ } ⟨7⟩
     { orderId := 7, isFilled := true, averagePrice := 50000 }
     rfl rfl rfl rfl⟩

/-- **C7** — exit orders are submitted only after a confirmed entry fill:
whenever the entry submission fails (throws, null/malformed response,
non-success result, missing `sendstatus`) or `monitorOrderFill` returns
`none` on timeout (its poll loop admits `TIMEOUT_MS / POLL_INTERVAL_MS`
= 12 polls of the recent-orders view, one per 5-second interval of the
60-second budget, none reporting the order filled), the `placeOrder` run
submits no stop-loss or take-profit order. -/
theorem placeOrder_no_exit_without_fill
    (sendRes : ApiResult (Option EntryResponse))
    (polls : ℕ → ApiResult (List RecOrder)) (signal : Sig)
    (size stopLoss takeProfit : ℚ)
    (h : entryAccepted sendRes = none ∨
         ∃ oid, entryAccepted sendRes = some oid ∧
           monitorOrderFill polls oid = none) :
    exitBatchesOf (placeOrder sendRes polls signal size stopLoss takeProfit) = [] := by
  match sendRes with
  | .throws => rfl
  | .returns none => rfl
  | .returns (some r) =>
    by_cases hres : r.result = "success"
    · match hss : r.sendstatus with
      | none =>
        rw [placeOrder]
        simp [hres, hss, exitBatchesOf]
      | some ss =>
        rcases h with hnone | ⟨oid, hoid, hmon⟩
        · rw [entryAccepted] at hnone
          simp [hres, hss] at hnone
        · rw [entryAccepted] at hoid
          simp only [hres, hss] at hoid
          simp only [ite_not, if_pos rfl, Option.map_some] at hoid
          have : oid = ss.order_id := by
            simpa using hoid.symm
          subst this
          rw [placeOrder]
          simp [hres, hss, hmon, exitBatchesOf]
    · rw [placeOrder]
      simp [hres, exitBatchesOf]

/-- Witness for `placeOrder_no_exit_without_fill`: a thrown entry
submission leads to no exit batch. -/
theorem placeOrder_no_exit_without_fill_witness :
    ((entryAccepted (ApiResult.throws : ApiResult (Option EntryResponse)) = none) ∨
     ∃ oid, entryAccepted (ApiResult.throws : ApiResult (Option EntryResponse)) =
         some oid ∧
       monitorOrderFill (fun _ => .returns []) oid = none) ∧
    exitBatchesOf (placeOrder .throws (fun _ => .returns []) .LONG 1 90 110) = [] :=
  ⟨Or.inl rfl,
   placeOrder_no_exit_without_fill .throws (fun _ => .returns []) .LONG 1 90 110
     (Or.inl rfl)⟩

end Sigtra
